import Mathlib

set_option maxRecDepth 1000000

/-!
# Verification of the railway-opendata aggregation backend

Shallow embedding of `src/webapp/backend/main.py` (FastAPI backend of the
railway-opendata repository): cache-key derivation, parameter validation,
the row loader's station/region filtering, company-code normalization,
the three aggregators' error policies, the delay-distribution core, the
upload path validation, and the encoding-fallback CSV reader.
-/

namespace RailwayOpenData

/-! ## 32-bit arithmetic and SHA-256 (`hashlib.sha256`)

`_cache_suffix` hashes the canonical JSON serialization with SHA-256 and
keeps the first 12 hex characters.  We embed SHA-256 executably over byte
lists, with 32-bit words as `Nat` reduced mod `2 ^ 32`. -/

deriving instance DecidableEq for Except

/-- Reduce to a 32-bit word. -/
def w32 (n : Nat) : Nat := n % 4294967296

/-- Rotate a 32-bit word right by `n` bits (for `x < 2 ^ 32`, `0 < n < 32`). -/
def rotr32 (x n : Nat) : Nat := x / 2 ^ n + x % 2 ^ n * 2 ^ (32 - n)

/-- SHA-256 big sigma 0. -/
def bsig0 (x : Nat) : Nat := (rotr32 x 2) ^^^ ((rotr32 x 13) ^^^ (rotr32 x 22))

/-- SHA-256 big sigma 1. -/
def bsig1 (x : Nat) : Nat := (rotr32 x 6) ^^^ ((rotr32 x 11) ^^^ (rotr32 x 25))

/-- SHA-256 small sigma 0. -/
def ssig0 (x : Nat) : Nat := (rotr32 x 7) ^^^ ((rotr32 x 18) ^^^ (x / 2 ^ 3))

/-- SHA-256 small sigma 1. -/
def ssig1 (x : Nat) : Nat := (rotr32 x 17) ^^^ ((rotr32 x 19) ^^^ (x / 2 ^ 10))

/-- SHA-256 choice function. -/
def ch (x y z : Nat) : Nat := (x &&& y) ^^^ ((4294967295 ^^^ x) &&& z)

/-- SHA-256 majority function. -/
def maj (x y z : Nat) : Nat := (x &&& y) ^^^ ((x &&& z) ^^^ (y &&& z))

/-- The 64 SHA-256 round constants (FIPS 180-4, in decimal). -/
def sha256K : List Nat :=
  [1116352408, 1899447441, 3049323471, 3921009573,
   961987163, 1508970993, 2453635748, 2870763221,
   3624381080, 310598401, 607225278, 1426881987,
   1925078388, 2162078206, 2614888103, 3248222580,
   3835390401, 4022224774, 264347078, 604807628,
   770255983, 1249150122, 1555081692, 1996064986,
   2554220882, 2821834349, 2952996808, 3210313671,
   3336571891, 3584528711, 113926993, 338241895,
   666307205, 773529912, 1294757372, 1396182291,
   1695183700, 1986661051, 2177026350, 2456956037,
   2730485921, 2820302411, 3259730800, 3345764771,
   3516065817, 3600352804, 4094571909, 275423344,
   430227734, 506948616, 659060556, 883997877,
   958139571, 1322822218, 1537002063, 1747873779,
   1955562222, 2024104815, 2227730452, 2361852424,
   2428436474, 2756734187, 3204031479, 3329325298]

/-- The eight 32-bit state words of SHA-256. -/
structure H8 where
  a : Nat
  b : Nat
  c : Nat
  d : Nat
  e : Nat
  f : Nat
  g : Nat
  h : Nat
deriving Repr, DecidableEq

/-- The SHA-256 initial hash value (FIPS 180-4, in decimal). -/
def sha256H0 : H8 :=
  ⟨1779033703, 3144134277, 1013904242, 2773480762,
   1359893119, 2600822924, 528734635, 1541459225⟩

/-- Big-endian eight-byte encoding of a natural number (mod `2 ^ 64`). -/
def be64 (n : Nat) : List Nat :=
  [n / 2 ^ 56 % 256, n / 2 ^ 48 % 256, n / 2 ^ 40 % 256, n / 2 ^ 32 % 256,
   n / 2 ^ 24 % 256, n / 2 ^ 16 % 256, n / 2 ^ 8 % 256, n % 256]

/-- Big-endian four-byte encoding of a 32-bit word. -/
def be32 (n : Nat) : List Nat :=
  [n / 2 ^ 24 % 256, n / 2 ^ 16 % 256, n / 2 ^ 8 % 256, n % 256]

/-- SHA-256 message padding: append `0x80`, zero bytes, and the bit length. -/
def sha256pad (msg : List Nat) : List Nat :=
  let L := msg.length
  let z := (64 - (L + 9) % 64) % 64
  msg ++ [128] ++ List.replicate z 0 ++ be64 (8 * L)

/-- Split a byte list into 64-byte blocks (structural recursion on fuel,
which always suffices since each step consumes at least one byte). -/
def chunk64Aux : Nat → List Nat → List (List Nat)
  | 0, _ => []
  | _ + 1, [] => []
  | n + 1, x :: xs => ((x :: xs).take 64) :: chunk64Aux n ((x :: xs).drop 64)

/-- Split a byte list into 64-byte blocks. -/
def chunk64 (l : List Nat) : List (List Nat) := chunk64Aux l.length l

/-- Big-endian 32-bit words from a byte list. -/
def bytesToWords : List Nat → List Nat
  | a :: b :: c :: d :: rest => (a * 2 ^ 24 + b * 2 ^ 16 + c * 2 ^ 8 + d) :: bytesToWords rest
  | _ => []

/-- Message-schedule extension, keeping the schedule most-recent-first. -/
def extendWAux : Nat → List Nat → List Nat
  | 0, wrev => wrev
  | n + 1, wrev =>
    let wi := w32 (ssig1 (wrev.getD 1 0) + wrev.getD 6 0 + ssig0 (wrev.getD 14 0) + wrev.getD 15 0)
    extendWAux n (wi :: wrev)

/-- The 64-word SHA-256 message schedule of one block's 16 words. -/
def extendW (ws : List Nat) : List Nat :=
  (extendWAux 48 ws.reverse).reverse

/-- One SHA-256 round. -/
def sha256round (st : H8) (k w : Nat) : H8 :=
  let t1 := w32 (st.h + bsig1 st.e + ch st.e st.f st.g + k + w)
  let t2 := w32 (bsig0 st.a + maj st.a st.b st.c)
  ⟨w32 (t1 + t2), st.a, st.b, st.c, w32 (st.d + t1), st.e, st.f, st.g⟩

/-- Run the 64 rounds over the round constants and message schedule. -/
def sha256rounds : List Nat → List Nat → H8 → H8
  | k :: ks, w :: ws, st => sha256rounds ks ws (sha256round st k w)
  | _, _, st => st

/-- Compress one 64-byte block into the running state. -/
def sha256compress (st : H8) (block : List Nat) : H8 :=
  let r := sha256rounds sha256K (extendW (bytesToWords block)) st
  ⟨w32 (st.a + r.a), w32 (st.b + r.b), w32 (st.c + r.c), w32 (st.d + r.d),
   w32 (st.e + r.e), w32 (st.f + r.f), w32 (st.g + r.g), w32 (st.h + r.h)⟩

/-- SHA-256 digest (32 bytes) of a byte list. -/
def sha256 (msg : List Nat) : List Nat :=
  let fin := (chunk64 (sha256pad msg)).foldl sha256compress sha256H0
  be32 fin.a ++ be32 fin.b ++ be32 fin.c ++ be32 fin.d ++
    be32 fin.e ++ be32 fin.f ++ be32 fin.g ++ be32 fin.h

/-- The lowercase hexadecimal alphabet. -/
def hexAlphabet : List Char := "0123456789abcdef".toList

/-- One lowercase hex digit. -/
def hexDigitChar (n : Nat) : Char := hexAlphabet.getD n '0'

/-- Two lowercase hex digits of one byte. -/
def byteHex (b : Nat) : List Char := [hexDigitChar (b / 16), hexDigitChar (b % 16)]

/-- The hex character sequence of a digest. -/
def hexChars (bytes : List Nat) : List Char := (bytes.map byteHex).flatten

/-- `hashlib`'s `.hexdigest()`: lowercase hex of the digest bytes. -/
def hexdigest (bytes : List Nat) : String := String.mk (hexChars bytes)

/-- UTF-8 encoding of one character. -/
def utf8EncodeChar (c : Char) : List Nat :=
  let n := c.toNat
  if n < 128 then [n]
  else if n < 2048 then [192 + n / 64, 128 + n % 64]
  else if n < 65536 then [224 + n / 4096, 128 + n / 64 % 64, 128 + n % 64]
  else [240 + n / 262144, 128 + n / 4096 % 64, 128 + n / 64 % 64, 128 + n % 64]

/-- UTF-8 encoding of a string (`str.encode("utf-8")`). -/
def utf8Bytes (s : String) : List Nat := (s.toList.map utf8EncodeChar).flatten

/-! ## Cache-key derivation (`_parse_csv_list`, `_cache_suffix`)

The three statistics endpoints build the payload
`{"s": ..., "e": ..., "railway_companies": [...], "regions": [...],
"station_query": ...}` and call
`_cache_suffix`, which serializes it with
`json.dumps(payload, sort_keys=True, ensure_ascii=False)` and keeps the
first 12 hex characters of the SHA-256 digest of the UTF-8 bytes. -/

/-- The normalized query parameters that feed `_cache_suffix` in the three
statistics endpoints. -/
structure QueryPayload where
  s : String
  e : String
  railway_companies : List String
  regions : List String
  station_query : String
deriving Repr, DecidableEq

/-- `json.dumps` escaping of one character inside a string literal
(`ensure_ascii=False`: non-ASCII characters pass through unescaped). -/
def jsonEscapeChar (c : Char) : List Char :=
  if c = '"' then ['\\', '"']
  else if c = '\\' then ['\\', '\\']
  else [c]

/-- `json.dumps` rendering of a string value. -/
def jsonString (s : String) : String :=
  "\"" ++ String.mk ((s.toList.map jsonEscapeChar).flatten) ++ "\""

/-- `json.dumps` rendering of a list of strings, with the default
`", "` item separator. -/
def jsonStringList (xs : List String) : String :=
  "[" ++ String.intercalate ", " (xs.map jsonString) ++ "]"

/-- `json.dumps(payload, sort_keys=True, ensure_ascii=False)` for the cache
payload: object keys in sorted order
(`"e" < "railway_companies" < "regions" < "s" < "station_query"`), default
separators `", "` and `": "`. -/
def payloadJson (p : QueryPayload) : String :=
  "\x7b" ++ String.intercalate ", "
    ["\"e\": " ++ jsonString p.e,
     "\"railway_companies\": " ++ jsonStringList p.railway_companies,
     "\"regions\": " ++ jsonStringList p.regions,
     "\"s\": " ++ jsonString p.s,
     "\"station_query\": " ++ jsonString p.station_query] ++ "\x7d"

/-- `_cache_suffix`: first 12 lowercase-hex characters of the SHA-256 digest
of the canonical JSON serialization of the payload. -/
def cacheSuffix (p : QueryPayload) : String :=
  String.mk ((hexChars (sha256 (utf8Bytes (payloadJson p)))).take 12)

/-- Python `str.strip()` (whitespace trim), on the character list. -/
def pyStrip (s : String) : String :=
  String.mk (((s.toList.dropWhile Char.isWhitespace).reverse.dropWhile Char.isWhitespace).reverse)

/-- Python `str.lower()` (ASCII case folding suffices for this data). -/
def pyLower (s : String) : String := String.mk (s.toList.map Char.toLower)

/-- Split a character list on a separator character (Python `str.split(sep)`:
`""` splits to `[""]`, separators delimit possibly empty fields). -/
def splitChar (sep : Char) : List Char → List (List Char)
  | [] => [[]]
  | x :: rest =>
    let r := splitChar sep rest
    if x = sep then [] :: r
    else
      match r with
      | l :: ls => (x :: l) :: ls
      | [] => [[x]]

/-- Python `s.split(sep)` on strings. -/
def pySplit (sep : Char) (s : String) : List String :=
  (splitChar sep s.toList).map String.mk

/-- `_parse_csv_list`: split a CSV query parameter on commas, strip each
item, and drop empty items; `None` or `""` yields the empty list. -/
def parseCsvList (value : Option String) : List String :=
  match value with
  | none => []
  | some v =>
    if v = "" then []
    else ((pySplit ',' v).map pyStrip).filter (fun x => x ≠ "")

/-! ## HTTP errors, date-range validation, default describe window

Dates are embedded as proleptic day ordinals (`Int`); Python's
`(e - s).days` on `datetime.date` values is exactly the ordinal
difference. -/

/-- An `HTTPException`: status code and detail message. -/
structure HttpError where
  status : Nat
  detail : String
deriving Repr, DecidableEq

/-- `MAX_RANGE_DAYS` from the backend module. -/
def MAX_RANGE_DAYS : Int := 366

/-- `_validate_range`: reject when `end < start` or the span exceeds
`max_days`, otherwise return without error. -/
def validateRange (s e maxDays : Int) : Except HttpError Unit :=
  if e < s then .error ⟨400, "end_date must be >= start_date"⟩
  else if e - s > maxDays then
    .error ⟨400, "Date range too large. Max allowed is max_days days."⟩
  else .ok ()

/-- The date-range selection at the top of `get_describe_stats`: explicit
dates pass through; one-sided input is a 400; with neither date the default
window is derived from the available partition range `(availMin, availMax)`
and the `default_window_days` parameter.  Returns
`(s, e, used_default_window, available_min, available_max,
default_window_days as reported)`. -/
def describeDateParams (startDate endDate : Option Int) (availMin availMax dwd0 : Int) :
    Except HttpError (Int × Int × Bool × Option Int × Option Int × Option Int) :=
  match startDate, endDate with
  | some s, some e => .ok (s, e, false, none, none, none)
  | none, none =>
    let dwd := if dwd0 < 1 then 30 else dwd0
    .ok (max availMin (availMax - (dwd - 1)), availMax, true, some availMin, some availMax, some dwd)
  | _, _ => .error ⟨400, "Provide both start_date and end_date, or neither"⟩

/-! ## Cache write on a miss (`get_describe_stats`, tail)

After computing the payload on a cache miss the endpoint executes
`with open(cache_json, "w") as f: json.dump(sanitized, f)` and then
`return sanitized`, with no exception handler around the write: the
write's outcome is modelled as an input, and an exception propagates out
of the request instead of being swallowed. -/

/-- The final cache-write-then-respond step of a cache-miss computation.
`writeResult` is the outcome of the unguarded `open`/`json.dump` call. -/
def cacheWriteAndRespond {α : Type} (writeResult : Except String Unit) (payload : α) :
    Except String α :=
  match writeResult with
  | .error e => .error e
  | .ok _ => .ok payload

/-! ## Company-code normalization (`_map_company`) -/

/-- A raw `client_code` cell as seen by `_map_company`: Python `None`,
float `NaN`, an integer, or a string. -/
inductive PyScalar where
  | none
  | nan
  | int (i : Int)
  | str (s : String)
deriving Repr, DecidableEq

/-- Modelled from the spec: `RailwayCompany.from_code` is defined in
`src/const.py`, which is not among the provided sources; per the spec,
integer codes map through a fixed Company enumeration and codes outside it
map to the `OTHER` sentinel.  The table is a representative fixed
enumeration; no theorem below depends on its exact entries. -/
def railwayCompanyFromCode (code : Int) : String :=
  match [( (1 : Int), "TRENITALIA_AV"), (2, "TRENITALIA_REG"),
         (63, "TRENORD"), (64, "OBB")].find? (fun kv => kv.fst = code) with
  | some kv => kv.snd
  | Option.none => "OTHER"

/-- Python `str.lstrip("-")`: drop every leading `'-'`. -/
def lstripMinus (s : String) : String := String.mk (s.toList.dropWhile (fun c => c = '-'))

/-- Python `str.isdigit()` restricted to ASCII: nonempty and all digits. -/
def pyIsDigit (s : String) : Bool := decide (s.toList ≠ []) && s.toList.all Char.isDigit

/-- ASCII digits to a natural number. -/
def digitsToNat (l : List Char) : Nat := l.foldl (fun a c => a * 10 + (c.toNat - 48)) 0

/-- Python `int(s)` on a stripped string: an optional single sign followed
by at least one digit, anything else a `ValueError` (`none`). -/
def pyInt? (s : String) : Option Int :=
  match s.toList with
  | [] => Option.none
  | c :: rest =>
    if c = '-' then
      if rest ≠ [] && rest.all Char.isDigit then some (-(digitsToNat rest : Int)) else Option.none
    else if c = '+' then
      if rest ≠ [] && rest.all Char.isDigit then some (digitsToNat rest : Int) else Option.none
    else if (c :: rest).all Char.isDigit then some (digitsToNat (c :: rest) : Int)
    else Option.none

/-- `_map_company`: `None`/`NaN` map to `OTHER`; integers map through the
company enumeration; strings are stripped, empty maps to `OTHER`, strings
whose `lstrip("-")` is all digits go through `int()` and the enumeration
(a multi-minus string raises `ValueError`, modelled as `.error`); and any
other string is kept as it is. -/
def mapCompany (v : PyScalar) : Except String String :=
  match v with
  | .none => .ok "OTHER"
  | .nan => .ok "OTHER"
  | .int i => .ok (railwayCompanyFromCode i)
  | .str v =>
    let s := pyStrip v
    if s = "" then .ok "OTHER"
    else if pyIsDigit (lstripMinus s) then
      match pyInt? s with
      | some n => .ok (railwayCompanyFromCode n)
      | Option.none => .error "ValueError: invalid literal for int()"
    else .ok s

/-! ## Upload path validation (`_safe_relpath`, `_safe_extract_zip`) -/

/-- Python `str.lstrip("/")`: drop every leading slash. -/
def lstripSlash (s : String) : String := String.mk (s.toList.dropWhile (fun c => c = '/'))

/-- `str.startswith` as a character-list prefix test. -/
def strStartsWith (s p : String) : Bool := p.toList.isPrefixOf s.toList

/-- `str.endswith` as a character-list suffix test. -/
def strEndsWith (s p : String) : Bool := p.toList.reverse.isPrefixOf s.toList.reverse

/-- Python `value.replace("\\", "/")` (single-character replacement). -/
def slashify (s : String) : String :=
  String.mk (s.toList.map (fun c => if c = '\\' then '/' else c))

/-- `_safe_relpath`: normalize backslashes to slashes, strip leading
slashes, drop empty components, reject components equal to `".."`. -/
def safeRelpath (pathValue : Option String) : Except HttpError String :=
  let raw := lstripSlash (slashify (pathValue.getD ""))
  let parts := (pySplit '/' raw).filter (fun p => p ≠ "")
  if ".." ∈ parts then .error ⟨400, "Invalid path in upload payload"⟩
  else .ok (String.intercalate "/" parts)

/-- One zip archive entry: its path and whether it is a directory entry. -/
structure ZipEntry where
  filename : String
  isDir : Bool
deriving Repr, DecidableEq

/-- `pathlib.PurePosixPath(name).parts` for a relative posix path: split on
slashes, dropping empty and `"."` components. -/
def pathParts (name : String) : List String :=
  (pySplit '/' name).filter (fun p => p ≠ "" && p ≠ ".")

/-- One iteration of the `_safe_extract_zip` loop: reject absolute entry
paths, skip macOS metadata, reject `".."` components, skip directory
entries, and otherwise record the extracted relative target. -/
def zipEntryStep : Except HttpError (List String) → ZipEntry → Except HttpError (List String)
  | .error e, _ => .error e
  | .ok extracted, entry =>
    let name := slashify entry.filename
    if strStartsWith name "/" then .error ⟨400, "Invalid zip entry path"⟩
    else if strStartsWith name "__MACOSX/" || strEndsWith name ".DS_Store" then .ok extracted
    else if ".." ∈ pathParts name then .error ⟨400, "Invalid zip entry path"⟩
    else if entry.isDir then .ok extracted
    else .ok (extracted ++ [name])

/-- `_safe_extract_zip` over the archive's entry list: the relative paths
written under the temporary extraction directory, or the 400 rejection.
Installation into the current dataset (`_archive_existing_dataset`,
`_copy_dataset_into_webapp`) only happens after this returns without
error. -/
def safeExtractZip (entries : List ZipEntry) : Except HttpError (List String) :=
  entries.foldl zipEntryStep (.ok [])

end RailwayOpenData

namespace RailwayOpenData

/-! ## The unified stop-event table

`_load_trains_df` concatenates the per-day `trains.csv` partitions into one
pandas DataFrame.  A `Table` is the list of present columns plus the rows;
a field of a row is meaningful only when the corresponding column is
present, and `Option.none` is a null (`NaN`) cell.  Delay cells are already
numeric-or-null in this embedding, so the boxplot's
`pd.to_numeric(..., errors="coerce")` is the identity here. -/

/-- One stop-event row of the unified table. -/
structure Row where
  train_hash : Option String
  stop_number : Option Int
  stop_station_code : Option String
  arrival_delay : Option Int
  departure_delay : Option Int
  crowding : Option Int
  day : Option Int
  client_code : Option String
  phantom : Option Bool
  trenord_phantom : Option Bool
deriving Repr, DecidableEq

/-- The unified table: present columns and rows. -/
structure Table where
  cols : List String
  rows : List Row
deriving Repr, DecidableEq

/-- The phantom filtering of `_load_trains_df`: when the `phantom`
(respectively `trenord_phantom`) column exists, keep only rows where the
flag compares equal to `False` (a null flag is not equal to `False`, so
such rows are dropped too) and drop the column. -/
def filterPhantoms (t : Table) : Table :=
  let t1 :=
    if "phantom" ∈ t.cols then
      { cols := t.cols.filter (fun c => c ≠ "phantom"),
        rows := (t.rows.filter (fun r => r.phantom = some false)).map
          (fun r => { r with phantom := Option.none }) }
    else t
  if "trenord_phantom" ∈ t1.cols then
    { cols := t1.cols.filter (fun c => c ≠ "trenord_phantom"),
      rows := (t1.rows.filter (fun r => r.trenord_phantom = some false)).map
        (fun r => { r with trenord_phantom := Option.none }) }
  else t1

/-! ## Station Index and station/region filtering (`_load_stations_index`,
`_resolve_station_codes`, tail of `_load_trains_df`) -/

/-- Station metadata as stored in the in-memory index under `by_code`. -/
structure StationMeta where
  name : String
  short_name : String
  region_name : Option String
deriving Repr, DecidableEq

/-- The in-memory Station Index: `by_code` (station code to metadata) and
`codes_by_region_name` (lowercased region name to station codes). -/
structure StationsIndex where
  by_code : List (String × StationMeta)
  codes_by_region_name : List (String × List String)
deriving Repr, DecidableEq

/-- `codes_by_region_name.get(rk) or set()`. -/
def regionLookup (idx : StationsIndex) (rk : String) : List String :=
  match idx.codes_by_region_name.find? (fun kv => kv.fst = rk) with
  | some kv => kv.snd
  | Option.none => []

/-- The region branch of `_load_trains_df`: strip/lowercase each non-blank
requested region name and take the union of the codes registered under
those keys. -/
def regionCodes (regions : List String) (idx : StationsIndex) : List String :=
  (((regions.filter (fun r => pyStrip r ≠ "")).map
    (fun r => pyLower (pyStrip r))).map (regionLookup idx)).flatten

/-- Python substring containment (`needle in hay`) on character lists. -/
def isInfixB (n : List Char) : List Char → Bool
  | [] => n.isEmpty
  | x :: xs => n.isPrefixOf (x :: xs) || isInfixB n xs

/-- `_resolve_station_codes`: strip and lowercase the query; an empty
needle matches nothing; otherwise collect the codes whose
code-space-name-space-short-name haystack contains the needle. -/
def resolveStationCodes (query : String) (idx : StationsIndex) : List String :=
  let needle := pyLower (pyStrip query)
  if needle = "" then []
  else (idx.by_code.filter (fun kv =>
      let hay := pyLower (kv.fst ++ " " ++ kv.snd.name ++ " " ++ kv.snd.short_name)
      isInfixB needle.toList hay.toList)).map Prod.fst

/-- Python truthiness of the `station_query` parameter: present and
nonempty (whitespace counts as truthy). -/
def queryTruthy (stationQuery : Option String) : Bool :=
  match stationQuery with
  | some q => q ≠ ""
  | Option.none => false

/-- The `allowed_codes` computation of `_load_trains_df`: `none` when
neither filter is given; otherwise the region union, the station matches,
or their intersection. -/
def allowedStationCodes (regions : List String) (stationQuery : Option String)
    (idx : StationsIndex) : Option (List String) :=
  let fromRegions : Option (List String) :=
    if regions ≠ [] then some (regionCodes regions idx) else Option.none
  match stationQuery with
  | some q =>
    if q ≠ "" then
      let sc := resolveStationCodes q idx
      match fromRegions with
      | Option.none => some sc
      | some ac => some (ac.filter (fun c => decide (c ∈ sc)))
    else fromRegions
  | Option.none => fromRegions

/-- The final station filtering of `_load_trains_df`: with no filter the
table passes through; with a filter but no `stop_station_code` column the
result is `df.iloc[0:0]` (same columns, no rows); otherwise keep the rows
whose station code is a member of the allowed set (a null code is not a
member). -/
def applyStationFilters (t : Table) (regions : List String)
    (stationQuery : Option String) (idx : StationsIndex) : Table :=
  match allowedStationCodes regions stationQuery idx with
  | Option.none => t
  | some allowed =>
    if "stop_station_code" ∈ t.cols then
      { t with rows := t.rows.filter (fun r =>
          match r.stop_station_code with
          | some c => decide (c ∈ allowed)
          | Option.none => false) }
    else { t with rows := [] }

/-! ## Aggregator cores

Each aggregator receives the filtered unified table from
`_load_trains_df`. The embeddings keep every error branch and the
structural output (which rows and groups are selected); the
floating-point rendering (`describe()` statistics, seaborn plots) is
outside the data contract. -/

/-- One step of collecting distinct non-null trip identifiers. -/
def tripStep (acc : List String) (r : Row) : List String :=
  match r.train_hash with
  | some h => if h ∈ acc then acc else acc ++ [h]
  | Option.none => acc

/-- Distinct non-null trip identifiers in first-appearance order
(`df["train_hash"]` and `groupby("train_hash", sort=False)` both skip
nulls). -/
def tripIds (rows : List Row) : List String :=
  rows.foldl tripStep []

/-- The structural output of `get_describe_stats` on a cache miss: the
numeric columns described and the headline distinct-trip count (`None`
when the `train_hash` column is absent). -/
structure DescribeOut where
  numeric_cols : List String
  count : Option Nat
deriving Repr, DecidableEq

/-- The aggregation core of `get_describe_stats` after loading: describe
the present numeric columns (404 when there are none) and report
`df["train_hash"].nunique()` as the headline count when the column
exists, `None` otherwise.  There is no empty-table check and no
`train_hash` requirement in this endpoint. -/
def describeCore (t : Table) : Except HttpError DescribeOut :=
  let numeric_cols :=
    ["stop_number", "arrival_delay", "departure_delay", "crowding"].filter
      (fun c => decide (c ∈ t.cols))
  if numeric_cols = [] then .error ⟨404, "No numeric columns found to describe"⟩
  else .ok ⟨numeric_cols,
    if "train_hash" ∈ t.cols then some (tripIds t.rows).length else Option.none⟩

/-- Comparison used by `sub.sort_values("stop_number")`: ascending
`stop_number` with nulls placed last (pandas `na_position="last"`). -/
def stopLe (a b : Row) : Bool :=
  match a.stop_number, b.stop_number with
  | some x, some y => x ≤ y
  | some _, Option.none => true
  | Option.none, some _ => false
  | Option.none, Option.none => true

/-- `stopLe` as a relation. -/
def stopLeP (a b : Row) : Prop := stopLe a b = true

instance : DecidableRel stopLeP := fun a b => instDecidableEqBool (stopLe a b) true

/-- Strictly smaller stop sequence number (both present). -/
def stopLt (x y : Row) : Bool :=
  match x.stop_number, y.stop_number with
  | some a, some b => a < b
  | _, _ => false

/-- `sub.sort_values("stop_number")` (a stable sort; pandas' default
quicksort only differs from it in the relative order of equal keys). -/
def sortByStopNumber (rows : List Row) : List Row :=
  List.insertionSort stopLeP rows

/-- The last non-null value of a column within one group
(`GroupBy.last` skips nulls). -/
def lastSome (xs : List (Option Int)) : Option Int :=
  xs.foldl (fun acc x =>
    match x with
    | some v => some v
    | Option.none => acc) Option.none

/-- One row of `per_train = sub.groupby("train_hash", sort=False).last()`
after `reset_index()`. -/
structure PerTrainRow where
  train_hash : String
  stop_number : Option Int
  arrival_delay : Option Int
  departure_delay : Option Int
deriving Repr, DecidableEq

/-- `groupby("train_hash", sort=False).last()` on one key: per column, the
last non-null value among the group's rows in table order. -/
def groupLastRow (rows : List Row) (h : String) : PerTrainRow :=
  let g := rows.filter (fun r => r.train_hash = some h)
  ⟨h, lastSome (g.map Row.stop_number), lastSome (g.map Row.arrival_delay),
    lastSome (g.map Row.departure_delay)⟩

/-- `groupby("train_hash", sort=False).last().reset_index()`: one
aggregated row per distinct trip identifier in first-appearance order. -/
def groupbyLast (rows : List Row) : List PerTrainRow :=
  (tripIds rows).map (groupLastRow rows)

/-- One row of the melted long-form table. -/
structure MeltRow where
  train_hash : String
  var : String
  value : Option Int
deriving Repr, DecidableEq

/-- `per_train.melt(id_vars=["train_hash"], value_vars=...)`: the block of
rows for the first variable, then the block for the second. -/
def meltPerTrain (perTrain : List PerTrainRow) (valueVars : List String) : List MeltRow :=
  valueVars.flatMap (fun v =>
    perTrain.map (fun p =>
      ⟨p.train_hash, v, if v = "arrival_delay" then p.arrival_delay else p.departure_delay⟩))

/-- The aggregation core of `get_delay_boxplot` after loading: 404 on an
empty table, 500 without `train_hash`, sort by `stop_number` when that
column exists, take `groupby("train_hash").last()` per trip, 404 when
neither delay column exists, and melt into long form. -/
def delayBoxplotCore (t : Table) : Except HttpError (List MeltRow) :=
  if t.rows = [] then .error ⟨404, "No data found for the selected filters"⟩
  else
    let needed :=
      ["train_hash", "stop_number", "arrival_delay", "departure_delay"].filter
        (fun c => decide (c ∈ t.cols))
    if "train_hash" ∉ needed then
      .error ⟨500, "Missing required column train_hash in raw data"⟩
    else
      let sub := if "stop_number" ∈ needed then sortByStopNumber t.rows else t.rows
      let perTrain := groupbyLast sub
      let valueVars :=
        ["arrival_delay", "departure_delay"].filter (fun c => decide (c ∈ needed))
      if valueVars = [] then .error ⟨404, "No delay columns found for boxplot"⟩
      else .ok (meltPerTrain perTrain valueVars)

/-- Distinct non-null trip identifiers within the rows of one
`(day, client_code)` group. -/
def groupCount (rows : List Row) (d : Int) (c : String) : Nat :=
  (tripIds (rows.filter (fun r => r.day = some d ∧ r.client_code = some c))).length

/-- The `(day, client_code)` group keys in first-appearance order
(`groupby` drops rows whose key contains a null). -/
def dayClientKeys (rows : List Row) : List (Int × String) :=
  rows.foldl (fun acc r =>
    match r.day, r.client_code with
    | some d, some c => if (d, c) ∈ acc then acc else acc ++ [(d, c)]
    | _, _ => acc) []

/-- Comparison for `grouped.sort_values("day")` (stable, by day only). -/
def dayKeyLe (a b : Int × String × Nat) : Bool := a.fst ≤ b.fst

/-- The aggregation core of `get_day_train_count` after loading: 404 on an
empty table, 500 without `train_hash`, a missing `client_code` column is
filled with `"unknown"`, a missing `day` column is filled with the query's
start date, then distinct trips per `(day, client_code)` group, sorted by
day. -/
def dayTrainCountCore (t : Table) (s : Int) : Except HttpError (List (Int × String × Nat)) :=
  if t.rows = [] then .error ⟨404, "No data found for the selected filters"⟩
  else if "train_hash" ∉ t.cols then
    .error ⟨500, "Missing required column train_hash in raw data"⟩
  else
    let rows1 :=
      if "client_code" ∈ t.cols then t.rows
      else t.rows.map (fun r => { r with client_code := some "unknown" })
    let rows2 :=
      if "day" ∈ t.cols then rows1
      else rows1.map (fun r => { r with day := some s })
    .ok (List.insertionSort (fun a b => dayKeyLe a b = true)
      ((dayClientKeys rows2).map (fun k => (k.fst, k.snd, groupCount rows2 k.fst k.snd))))

end RailwayOpenData

namespace RailwayOpenData

/-! ## Encoding-fallback CSV reader (`_read_csv_rows`)

`_read_csv_rows` is a generator: it opens the file with each candidate
encoding in turn and re-runs `for row in csv.DictReader(f): yield row`.
Decoding is buffered: the text layer decodes the file in chunks on
demand, so rows on fully decoded chunks are yielded before a decode
error on a later chunk aborts the attempt; the next attempt then starts
over from the beginning of the file.  The file is modelled as the list
of byte chunks the buffered reader delivers. -/

/-- The candidate encodings, in the order `_read_csv_rows` tries them. -/
inductive Enc where
  | utf8sig
  | utf8
  | cp1252
  | latin1
deriving Repr, DecidableEq

/-- Is a byte a UTF-8 continuation byte? -/
def isCont (b : Nat) : Bool := 128 ≤ b && b < 192

/-- Incremental strict UTF-8 decoding of a byte sequence: the decoded
characters plus the trailing incomplete multi-byte prefix (to be carried
into the next chunk), or `none` on an invalid sequence (stray or missing
continuation byte, overlong form, surrogate, out-of-range scalar). -/
def utf8DecodeAux : Nat → List Nat → Option (List Char × List Nat)
  | 0, bs => some ([], bs)
  | _ + 1, [] => some ([], [])
  | n + 1, b :: bs =>
    if b < 128 then
      (utf8DecodeAux n bs).map (fun r => (Char.ofNat b :: r.fst, r.snd))
    else if b < 192 then Option.none
    else if b < 224 then
      match bs with
      | [] => some ([], [b])
      | c1 :: bs2 =>
        if isCont c1 then
          let v := (b - 192) * 64 + (c1 - 128)
          if v < 128 then Option.none
          else (utf8DecodeAux n bs2).map (fun r => (Char.ofNat v :: r.fst, r.snd))
        else Option.none
    else if b < 240 then
      match bs with
      | [] => some ([], [b])
      | [c1] => if isCont c1 then some ([], [b, c1]) else Option.none
      | c1 :: c2 :: bs3 =>
        if isCont c1 && isCont c2 then
          let v := (b - 224) * 4096 + (c1 - 128) * 64 + (c2 - 128)
          if v < 2048 || (55296 ≤ v && v ≤ 57343) then Option.none
          else (utf8DecodeAux n bs3).map (fun r => (Char.ofNat v :: r.fst, r.snd))
        else Option.none
    else if b < 248 then
      match bs with
      | [] => some ([], [b])
      | [c1] => if isCont c1 then some ([], [b, c1]) else Option.none
      | [c1, c2] => if isCont c1 && isCont c2 then some ([], [b, c1, c2]) else Option.none
      | c1 :: c2 :: c3 :: bs4 =>
        if isCont c1 && isCont c2 && isCont c3 then
          let v := (b - 240) * 262144 + (c1 - 128) * 4096 + (c2 - 128) * 64 + (c3 - 128)
          if v < 65536 || 1114111 < v then Option.none
          else (utf8DecodeAux n bs4).map (fun r => (Char.ofNat v :: r.fst, r.snd))
        else Option.none
    else Option.none

/-- The Windows-1252 translation of the bytes `0x80`–`0x9F` (codepoints;
`none` for the five bytes the codec rejects). -/
def cp1252High (b : Nat) : Option Nat :=
  match (([(128, 8364), (130, 8218), (131, 402), (132, 8222), (133, 8230),
    (134, 8224), (135, 8225), (136, 710), (137, 8240), (138, 352),
    (139, 8249), (140, 338), (142, 381), (145, 8216), (146, 8217),
    (147, 8220), (148, 8221), (149, 8226), (150, 8211), (151, 8212),
    (152, 732), (153, 8482), (154, 353), (155, 8250), (156, 339),
    (158, 382), (159, 376)] : List (Nat × Nat)).find? (fun kv => kv.fst = b)) with
  | some kv => some kv.snd
  | Option.none => Option.none

/-- Windows-1252 decoding of one byte. -/
def cp1252Byte (b : Nat) : Option Char :=
  if b < 128 then some (Char.ofNat b)
  else if b < 160 then (cp1252High b).map Char.ofNat
  else some (Char.ofNat b)

/-- Decode a whole chunk with a single-byte codec. -/
def mapDecode (f : Nat → Option Char) : List Nat → Option (List Char)
  | [] => some []
  | b :: bs =>
    match f b with
    | some c => (mapDecode f bs).map (fun cs => c :: cs)
    | Option.none => Option.none

/-- The running state of one decoding attempt. -/
structure AttemptState where
  atStart : Bool
  pending : List Nat
  textbuf : List Char
  headerSeen : Bool
  rows : List (List String)
deriving Repr, DecidableEq

/-- Split decoded text into the complete (newline-terminated) lines and
the remaining partial line. -/
def splitCompleteLines : List Char → List (List Char) × List Char
  | [] => ([], [])
  | c :: rest =>
    let r := splitCompleteLines rest
    if c = '\n' then (([] : List Char) :: r.fst, r.snd)
    else
      match r.fst with
      | l :: ls => ((c :: l) :: ls, r.snd)
      | [] => ([], c :: r.snd)

/-- `csv` parsing of one line (the station files carry no quoted fields):
split on commas. -/
def parseCsvLine (l : List Char) : List String := (splitChar ',' l).map String.mk

/-- Feed one line to the `csv.DictReader` loop: blank lines are skipped,
the first line is the header, later lines are yielded as rows. -/
def consumeLine (st : AttemptState) (l : List Char) : AttemptState :=
  if l = [] then st
  else if ¬ st.headerSeen then { st with headerSeen := true }
  else { st with rows := st.rows ++ [parseCsvLine l] }

/-- Append freshly decoded text and yield the rows of every newly
completed line. -/
def consumeText (st : AttemptState) (cs : List Char) : AttemptState :=
  let split := splitCompleteLines (st.textbuf ++ cs)
  let st1 := split.fst.foldl consumeLine { st with textbuf := [] }
  { st1 with textbuf := split.snd }

/-- The UTF-8 byte-order mark. -/
def bomBytes : List Nat := [239, 187, 191]

/-- Decode the next chunk under one encoding, carrying the undecoded
trailing bytes of the previous chunk: the decoded characters and the new
trailing bytes, or `none` when the codec rejects the data.  `utf-8-sig`
strips a byte-order mark at the very start of the stream. -/
def decodeChunk (e : Enc) (atStart : Bool) (bytes : List Nat) :
    Option (List Char × List Nat) :=
  match e with
  | .utf8 => utf8DecodeAux bytes.length bytes
  | .utf8sig =>
    if atStart && decide (bytes.take 3 = bomBytes) then
      utf8DecodeAux (bytes.drop 3).length (bytes.drop 3)
    else if atStart && bytes.length < 3 && decide (bytes = bomBytes.take bytes.length) then
      some ([], bytes)
    else utf8DecodeAux bytes.length bytes
  | .cp1252 => (mapDecode cp1252Byte bytes).map (fun cs => (cs, []))
  | .latin1 => (mapDecode (fun b => some (Char.ofNat b)) bytes).map (fun cs => (cs, []))

/-- Run one decoding attempt over the chunk list: the rows yielded by this
attempt (in order) and whether the attempt decoded the whole file.  Rows
yielded before a decode failure have already escaped to the caller. -/
def runAttemptAux (e : Enc) (st : AttemptState) : List (List Nat) → List (List String) × Bool
  | [] =>
    if st.pending ≠ [] then (st.rows, false)
    else ((consumeLine st st.textbuf).rows, true)
  | chunk :: rest =>
    match decodeChunk e st.atStart (st.pending ++ chunk) with
    | Option.none => (st.rows, false)
    | some r =>
      runAttemptAux e
        { consumeText { st with atStart := false, pending := [] } r.fst with pending := r.snd }
        rest

/-- One decoding attempt from the start of the file. -/
def runAttempt (e : Enc) (chunks : List (List Nat)) : List (List String) × Bool :=
  runAttemptAux e ⟨true, [], [], false, []⟩ chunks

/-- `_read_csv_rows`: try `utf-8-sig`, `utf-8`, `cp1252`, `latin-1` in
order; every attempt's yielded rows reach the consumer, and the function
returns after the first attempt that decodes the whole file (`true`), or
raises after the last failed attempt (`false`) with all partial rows
already yielded. -/
def readCsvRows (chunks : List (List Nat)) : List (List String) × Bool :=
  [Enc.utf8sig, Enc.utf8, Enc.cp1252, Enc.latin1].foldl
    (fun acc e =>
      if acc.snd then acc
      else
        let r := runAttempt e chunks
        (acc.fst ++ r.fst, r.snd))
    ([], false)

end RailwayOpenData

namespace RailwayOpenData

/-! ## The claim's reading of the Delay Distribution selection, and
concrete inputs used by the theorems below -/

/-- The Delay Distribution selection as the specification words it: for
each trip take the whole last row in ascending stop-sequence order (the
last row in original order when the stop-sequence column is absent) and
melt that row's two delay cells.  Stated for comparison with
`delayBoxplotCore`, whose `groupby(...).last()` instead takes the last
non-null value per column. -/
def claimTerminalMelt (t : Table) : Except HttpError (List MeltRow) :=
  if t.rows = [] then .error ⟨404, "No data found for the selected filters"⟩
  else
    let needed :=
      ["train_hash", "stop_number", "arrival_delay", "departure_delay"].filter
        (fun c => decide (c ∈ t.cols))
    if "train_hash" ∉ needed then
      .error ⟨500, "Missing required column train_hash in raw data"⟩
    else
      let sub := if "stop_number" ∈ needed then sortByStopNumber t.rows else t.rows
      let valueVars :=
        ["arrival_delay", "departure_delay"].filter (fun c => decide (c ∈ needed))
      if valueVars = [] then .error ⟨404, "No delay columns found for boxplot"⟩
      else
        .ok (valueVars.flatMap (fun v =>
          (tripIds sub).map (fun hh =>
            match (sub.filter (fun r => r.train_hash = some hh)).getLast? with
            | some r =>
              ⟨hh, v, if v = "arrival_delay" then r.arrival_delay else r.departure_delay⟩
            | Option.none => ⟨hh, v, Option.none⟩)))

/-- A trip whose terminal stop (stop 2) has null delay cells while stop 1
has values: distinguishes per-row from per-column terminal selection. -/
def nullTermStop1 : Row :=
  ⟨some "t1", some 1, Option.none, some 5, some 6, Option.none, Option.none,
    Option.none, Option.none, Option.none⟩

/-- The terminal stop with null delays. -/
def nullTermStop2 : Row :=
  ⟨some "t1", some 2, Option.none, Option.none, Option.none, Option.none, Option.none,
    Option.none, Option.none, Option.none⟩

/-- The two-stop table with a null-delay terminal stop. -/
def nullTerminalTable : Table :=
  ⟨["train_hash", "stop_number", "arrival_delay", "departure_delay"],
   [nullTermStop1, nullTermStop2]⟩

/-- Stop 1 of the synthetic phantom scenario. -/
def phantomStop1 : Row :=
  ⟨some "t1", some 1, Option.none, some 1, some 2, Option.none, Option.none,
    Option.none, some false, Option.none⟩

/-- Stop 2 (the last non-phantom stop). -/
def phantomStop2 : Row :=
  ⟨some "t1", some 2, Option.none, some 7, some 8, Option.none, Option.none,
    Option.none, some false, Option.none⟩

/-- Stop 3, the nominal last stop by sequence number, marked phantom. -/
def phantomStop3 : Row :=
  ⟨some "t1", some 3, Option.none, some 9, some 9, Option.none, Option.none,
    Option.none, some true, Option.none⟩

/-- One trip with three stops, the last of which is a phantom row. -/
def phantomTable : Table :=
  ⟨["train_hash", "stop_number", "arrival_delay", "departure_delay", "phantom"],
   [phantomStop1, phantomStop2, phantomStop3]⟩

/-- Stop 2 as it appears after `filterPhantoms` (column dropped). -/
def phantomTerminal : Row :=
  ⟨some "t1", some 2, Option.none, some 7, some 8, Option.none, Option.none,
    Option.none, Option.none, Option.none⟩

/-- A two-station index: S1 in Lombardia, S2 in Piemonte. -/
def demoIndex : StationsIndex :=
  ⟨[("S1", ⟨"Milano Centrale", "MI C.LE", some "Lombardia"⟩),
    ("S2", ⟨"Torino Porta Nuova", "TO P.N.", some "Piemonte"⟩)],
   [("lombardia", ["S1"]), ("piemonte", ["S2"])]⟩

/-- A stop row at station S1. -/
def demoStopRow1 : Row :=
  ⟨some "t1", some 1, some "S1", Option.none, Option.none, Option.none, Option.none,
    Option.none, Option.none, Option.none⟩

/-- A stop row at station S2. -/
def demoStopRow2 : Row :=
  ⟨some "t2", some 1, some "S2", Option.none, Option.none, Option.none, Option.none,
    Option.none, Option.none, Option.none⟩

/-- A two-row table with a station-code column. -/
def demoTable : Table :=
  ⟨["train_hash", "stop_station_code"], [demoStopRow1, demoStopRow2]⟩

/-- A row carrying only an arrival delay (used for a table without the
trip-identifier column). -/
def delayOnlyRow : Row :=
  ⟨Option.none, Option.none, Option.none, some 3, Option.none, Option.none, Option.none,
    Option.none, Option.none, Option.none⟩

/-- All ten columns of a `trains.csv` partition as the loader reads them
(after phantom filtering drops the two flag columns). -/
def fullCols : List String :=
  ["train_hash", "stop_number", "arrival_delay", "departure_delay", "crowding",
   "day", "stop_station_code", "client_code"]

/-- First buffered chunk of a station CSV: pure ASCII, two complete
lines (the header and one data row). -/
def stationCsvChunk1 : List Nat := utf8Bytes "code,name\n1,MILANO\n"

/-- Second buffered chunk: contains byte `0xE8` (`è` in Windows-1252 and
Latin-1) followed by an ASCII byte, which is invalid UTF-8. -/
def stationCsvChunk2 : List Nat := utf8Bytes "2,GEN" ++ [232] ++ utf8Bytes "VE\n"

/-- A zip entry `_safe_extract_zip` rejects: an absolute path, or a
non-skipped entry with a `".."` path component. -/
def isBadZipEntry (entry : ZipEntry) : Prop :=
  strStartsWith (slashify entry.filename) "/" = true ∨
    (strStartsWith (slashify entry.filename) "__MACOSX/" = false ∧
      strEndsWith (slashify entry.filename) ".DS_Store" = false ∧
      ".." ∈ pathParts (slashify entry.filename))

end RailwayOpenData

namespace RailwayOpenData

/-! ## Theorems -/

/-- Sanity check of the SHA-256 embedding against the FIPS 180 test
vector for `"abc"`. -/
theorem sha256_test_vector :
    hexdigest (sha256 (utf8Bytes "abc")) =
      "ba7816bf8f01cfea414140de5dae2223b00361a396177a9cb410ff61f20015ad" := by decide

/-- C9: `_validate_range` (with the default 366-day bound) accepts every
range with start ≤ end and end − start ≤ 366 days, and rejects every
range with end < start or a span above 366 days with a 400
`InvalidParameter` error. -/
theorem validateRange_spec (s e : Int) :
    (s ≤ e → e - s ≤ 366 → validateRange s e 366 = .ok ()) ∧
    (e < s ∨ 366 < e - s → ∃ d, validateRange s e 366 = .error ⟨400, d⟩) := by
  constructor
  · intro h1 h2
    have hn1 : ¬ e < s := by omega
    have hn2 : ¬ e - s > 366 := by omega
    simp [validateRange, hn1, hn2]
  · intro h
    rcases h with h | h
    · exact ⟨"end_date must be >= start_date", by simp [validateRange, h]⟩
    · have hn1 : ¬ e < s := by omega
      exact ⟨"Date range too large. Max allowed is max_days days.",
        by simp [validateRange, hn1, h]⟩

/-- Witness for `validateRange_spec` at a concrete accepted and a
concrete rejected range. -/
theorem validateRange_spec_witness :
    validateRange 738733 738763 366 = .ok () ∧
    (∃ d, validateRange 738763 738733 366 = .error ⟨400, d⟩) ∧
    (∃ d, validateRange 738733 739200 366 = .error ⟨400, d⟩) :=
  ⟨(validateRange_spec 738733 738763).1 (by decide) (by decide),
   (validateRange_spec 738763 738733).2 (Or.inl (by decide)),
   (validateRange_spec 738733 739200).2 (Or.inr (by decide))⟩

/-- C10: with neither date given, `get_describe_stats` selects the window
ending at the most recent available partition date, starting
`default_window_days − 1` days earlier (any value below 1 reset to 30),
clamped to the earliest available date, and reports
`used_default_window = true` with the available date bounds. -/
theorem describe_default_window (availMin availMax dwd0 : Int) :
    ∃ s, describeDateParams Option.none Option.none availMin availMax dwd0 =
        .ok (s, availMax, true, some availMin, some availMax,
          some (if dwd0 < 1 then 30 else dwd0)) ∧
      availMin ≤ s ∧
      availMax - ((if dwd0 < 1 then 30 else dwd0) - 1) ≤ s ∧
      (availMin ≤ availMax - ((if dwd0 < 1 then 30 else dwd0) - 1) →
        s = availMax - ((if dwd0 < 1 then 30 else dwd0) - 1)) := by
  refine ⟨max availMin (availMax - ((if dwd0 < 1 then 30 else dwd0) - 1)), rfl,
    le_max_left _ _, le_max_right _ _, fun h => max_eq_right h⟩

/-- Witness for `describe_default_window`: available range day ordinals
0–100 with the default 30-day window select days 71–100. -/
theorem describe_default_window_witness :
    describeDateParams Option.none Option.none 0 100 30 =
      .ok (71, 100, true, some 0, some 100, some 30) := by
  obtain ⟨s, h1, -, -, h4⟩ := describe_default_window 0 100 30
  have hs : s = 71 := by rw [h4 (by norm_num)]; norm_num
  rw [hs] at h1
  simpa using h1

/-- C6 (counterexample): the cache write on a miss is not guarded, so a
failing write makes the whole request fail instead of still returning
the freshly computed result. -/
theorem cacheWrite_failure_fails_request :
    cacheWriteAndRespond (.error "No space left on device") (0 : Nat) =
      .error "No space left on device" ∧
    cacheWriteAndRespond (.error "No space left on device") (0 : Nat) ≠ .ok 0 := by decide

/-- C6 (amended): the computed payload is returned exactly when the
unguarded cache write succeeds; a write exception propagates and fails
the request. -/
theorem cacheWrite_outcome_propagation {α : Type} (p : α) (err : String) :
    cacheWriteAndRespond (.ok ()) p = .ok p ∧
    cacheWriteAndRespond (.error err) p = .error err :=
  ⟨rfl, rfl⟩

/-- C3 (counterexample): `_map_company` keeps a non-empty string that does
not parse as an integer as it is instead of mapping it to `OTHER`. -/
theorem mapCompany_keeps_unparseable_strings :
    mapCompany (.str "FOO") = .ok "FOO" ∧ mapCompany (.str "FOO") ≠ .ok "OTHER" := by decide

/-- A nonempty all-digit character list starts with a digit, which is
neither a sign nor a minus. -/
lemma head_digit_facts {c : Char} {cs : List Char}
    (hd : (c :: cs).all Char.isDigit = true) : c ≠ '-' ∧ c ≠ '+' := by
  have hcdig : c.isDigit = true := by
    simp [List.all_cons] at hd
    exact hd.1
  constructor
  · intro hc
    rw [hc] at hcdig
    exact absurd hcdig (by decide)
  · intro hc
    rw [hc] at hcdig
    exact absurd hcdig (by decide)

/-- `lstrip("-")` leaves an all-digit string unchanged. -/
lemma lstripMinus_digits (s : String) (hne : s.toList ≠ [])
    (hd : s.toList.all Char.isDigit = true) : lstripMinus s = s := by
  obtain ⟨c, cs, hl⟩ := List.exists_cons_of_ne_nil hne
  obtain ⟨hc1, -⟩ := head_digit_facts (hl ▸ hd)
  unfold lstripMinus
  rw [hl, List.dropWhile_cons_of_neg (by simpa using hc1), ← hl]
  rfl

/-- `int()` of a nonempty all-digit string. -/
lemma pyInt?_digits (s : String) (hne : s.toList ≠ [])
    (hd : s.toList.all Char.isDigit = true) :
    pyInt? s = some ((digitsToNat s.toList : Nat) : Int) := by
  obtain ⟨c, cs, hl⟩ := List.exists_cons_of_ne_nil hne
  obtain ⟨hc1, hc2⟩ := head_digit_facts (hl ▸ hd)
  unfold pyInt?
  rw [hl]
  simp only [if_neg hc1, if_neg hc2, hl ▸ hd]
  simp

/-- C3 (amended): `_map_company` maps `None`/`NaN` and blank strings to
`OTHER`, maps integers and digit strings through the company
enumeration, and keeps any other non-empty string unchanged (treating it
as an already-normalized enumeration name). -/
theorem mapCompany_normalization (i : Int) (v : String) :
    mapCompany .none = .ok "OTHER" ∧
    mapCompany .nan = .ok "OTHER" ∧
    mapCompany (.int i) = .ok (railwayCompanyFromCode i) ∧
    (pyStrip v = "" → mapCompany (.str v) = .ok "OTHER") ∧
    (pyIsDigit (pyStrip v) = true →
      mapCompany (.str v) = .ok (railwayCompanyFromCode (digitsToNat (pyStrip v).toList))) ∧
    (pyStrip v ≠ "" → pyIsDigit (lstripMinus (pyStrip v)) = false →
      mapCompany (.str v) = .ok (pyStrip v)) := by
  refine ⟨rfl, rfl, rfl, ?_, ?_, ?_⟩
  · intro h
    simp [mapCompany, h]
  · intro h
    obtain ⟨hne, hall⟩ : (pyStrip v).toList ≠ [] ∧ (pyStrip v).toList.all Char.isDigit = true := by
      simpa [pyIsDigit] using h
    have hneS : pyStrip v ≠ "" := by
      intro hc
      rw [hc] at hne
      exact hne rfl
    have hstrip : lstripMinus (pyStrip v) = pyStrip v := lstripMinus_digits _ hne hall
    have hint : pyInt? (pyStrip v) = some ((digitsToNat (pyStrip v).toList : Nat) : Int) :=
      pyInt?_digits _ hne hall
    have hd2 : pyIsDigit (lstripMinus (pyStrip v)) = true := by rw [hstrip]; exact h
    simp only [mapCompany, if_neg hneS, hd2, if_pos rfl, hint, if_true]
  · intro h1 h2
    simp [mapCompany, h1, h2]

/-- Witness for `mapCompany_normalization` at concrete inputs. -/
theorem mapCompany_normalization_witness :
    mapCompany (.int 2) = .ok (railwayCompanyFromCode 2) ∧
    mapCompany (.str " 63 ") = .ok (railwayCompanyFromCode (digitsToNat (pyStrip " 63 ").toList)) ∧
    mapCompany (.str "   ") = .ok "OTHER" := by
  obtain ⟨-, -, h3, -, h5, -⟩ := mapCompany_normalization 2 " 63 "
  obtain ⟨-, -, -, h4, -, -⟩ := mapCompany_normalization 2 "   "
  exact ⟨h3, h5 (by decide), h4 (by decide)⟩

end RailwayOpenData

namespace RailwayOpenData

/-- C1 (counterexample): the filter lists parsed by `_parse_csv_list` are
not sorted, and the cache key of `_cache_suffix` differs between two
parameter sets that differ only in company-list order. -/
theorem cacheSuffix_depends_on_list_order :
    parseCsvList (some "A,B") = ["A", "B"] ∧
    parseCsvList (some "B,A") = ["B", "A"] ∧
    cacheSuffix ⟨"2024-08-16", "2024-08-17", parseCsvList (some "A,B"), [], ""⟩ ≠
      cacheSuffix ⟨"2024-08-16", "2024-08-17", parseCsvList (some "B,A"), [], ""⟩ := by
  refine ⟨by decide, by decide, by decide⟩

/-- The SHA-256 digest is 32 bytes. -/
lemma sha256_length (msg : List Nat) : (sha256 msg).length = 32 := by
  simp [sha256, be32]

/-- Hex rendering doubles the byte count. -/
lemma hexChars_length (bs : List Nat) : (hexChars bs).length = 2 * bs.length := by
  induction bs with
  | nil => rfl
  | cons b bs ih =>
    simp only [hexChars, List.map_cons, List.flatten_cons, List.length_append,
      List.length_cons] at ih ⊢
    simp [byteHex] at ih ⊢
    omega

/-- Every rendered hex digit is a lowercase hex character. -/
lemma hexDigitChar_mem (n : Nat) : hexDigitChar n ∈ hexAlphabet := by
  unfold hexDigitChar
  rcases Nat.lt_or_ge n 16 with h | h
  · interval_cases n <;> decide
  · rw [List.getD_eq_default]
    · decide
    · have h16 : hexAlphabet.length = 16 := rfl
      omega

/-- Every character of a hex digest is a lowercase hex character. -/
lemma hexChars_subset (bs : List Nat) : ∀ c ∈ hexChars bs, c ∈ hexAlphabet := by
  intro c hc
  simp only [hexChars, List.mem_flatten, List.mem_map] at hc
  obtain ⟨l, ⟨b, -, rfl⟩, hcb⟩ := hc
  simp only [byteHex, List.mem_cons, List.not_mem_nil, or_false] at hcb
  rcases hcb with rfl | rfl <;> exact hexDigitChar_mem _

/-- C1 (amended): the cache key is the first 12 lowercase-hex characters
of the SHA-256 digest of the canonical sorted-keys JSON serialization of
the normalized parameters; since the filter lists are serialized in the
given order, keys of permuted lists may differ
(`cacheSuffix_depends_on_list_order`). -/
theorem cacheSuffix_is_twelve_lowercase_hex (p : QueryPayload) :
    (cacheSuffix p).length = 12 ∧ ∀ c ∈ (cacheSuffix p).toList, c ∈ hexAlphabet := by
  constructor
  · show ((hexChars (sha256 (utf8Bytes (payloadJson p)))).take 12).length = 12
    rw [List.length_take, hexChars_length, sha256_length]
    omega
  · intro c hc
    have hmem : c ∈ hexChars (sha256 (utf8Bytes (payloadJson p))) :=
      List.mem_of_mem_take hc
    exact hexChars_subset _ c hmem

/-- Witness for `cacheSuffix_is_twelve_lowercase_hex` at a concrete
parameter set. -/
theorem cacheSuffix_is_twelve_lowercase_hex_witness :
    (cacheSuffix ⟨"2024-08-16", "2024-08-17", [], [], ""⟩).length = 12 :=
  (cacheSuffix_is_twelve_lowercase_hex ⟨"2024-08-16", "2024-08-17", [], [], ""⟩).1

/-- C2 (counterexample): `get_describe_stats` raises no error on an empty
filtered table (it reports zero distinct trips), and raises no error
when the trip-identifier column is absent (it reports a null count). -/
theorem describeCore_no_empty_no_train_hash_check :
    describeCore ⟨fullCols, []⟩ =
      .ok ⟨["stop_number", "arrival_delay", "departure_delay", "crowding"], some 0⟩ ∧
    describeCore ⟨["arrival_delay"], [delayOnlyRow]⟩ =
      .ok ⟨["arrival_delay"], Option.none⟩ := by decide

/-- C2 (amended): the Delay Distribution and Daily Train Count
aggregators fail with 404 on an empty filtered table and with a
missing-required-column error (HTTP 500) when `train_hash` is absent;
Describe errors exactly when none of its four numeric columns is
present, tolerating both an empty table and a missing `train_hash`. -/
theorem aggregator_failure_policy (t : Table) (s : Int) :
    (t.rows = [] →
      delayBoxplotCore t = .error ⟨404, "No data found for the selected filters"⟩ ∧
      dayTrainCountCore t s = .error ⟨404, "No data found for the selected filters"⟩) ∧
    (t.rows ≠ [] → "train_hash" ∉ t.cols →
      delayBoxplotCore t = .error ⟨500, "Missing required column train_hash in raw data"⟩ ∧
      dayTrainCountCore t s = .error ⟨500, "Missing required column train_hash in raw data"⟩) ∧
    ((∃ out, describeCore t = .ok out) ↔
      ∃ c ∈ ["stop_number", "arrival_delay", "departure_delay", "crowding"], c ∈ t.cols) := by
  refine ⟨?_, ?_, ?_⟩
  · intro h
    constructor <;> simp [delayBoxplotCore, dayTrainCountCore, h]
  · intro h1 h2
    constructor
    · have hn : "train_hash" ∉
          (["train_hash", "stop_number", "arrival_delay", "departure_delay"].filter
            (fun c => decide (c ∈ t.cols))) := by
        simp [List.mem_filter, h2]
      simp [delayBoxplotCore, h1, hn]
    · simp [dayTrainCountCore, h1, h2]
  · constructor
    · rintro ⟨out, hout⟩
      by_contra hnone
      push_neg at hnone
      have hfil : (["stop_number", "arrival_delay", "departure_delay", "crowding"].filter
          (fun c => decide (c ∈ t.cols))) = [] := by
        rw [List.filter_eq_nil_iff]
        intro a ha
        simpa using hnone a ha
      simp [describeCore, hfil] at hout
    · intro hex
      have hfil : (["stop_number", "arrival_delay", "departure_delay", "crowding"].filter
          (fun c => decide (c ∈ t.cols))) ≠ [] := by
        obtain ⟨c, hc1, hc2⟩ := hex
        intro hc
        have hmem : c ∈ (["stop_number", "arrival_delay", "departure_delay", "crowding"].filter
            (fun c => decide (c ∈ t.cols))) :=
          List.mem_filter.mpr ⟨hc1, by simpa using hc2⟩
        rw [hc] at hmem
        exact List.not_mem_nil c hmem
      simp only [describeCore]
      rw [if_neg hfil]
      exact ⟨_, rfl⟩

/-- Witness for `aggregator_failure_policy`: the 404 on an empty table
and the 500 on a table without the trip-identifier column. -/
theorem aggregator_failure_policy_witness :
    delayBoxplotCore ⟨fullCols, []⟩ =
      .error ⟨404, "No data found for the selected filters"⟩ ∧
    dayTrainCountCore ⟨["arrival_delay"], [delayOnlyRow]⟩ 0 =
      .error ⟨500, "Missing required column train_hash in raw data"⟩ := by
  obtain ⟨h1, -, -⟩ := aggregator_failure_policy ⟨fullCols, []⟩ 0
  obtain ⟨-, h2, -⟩ := aggregator_failure_policy ⟨["arrival_delay"], [delayOnlyRow]⟩ 0
  exact ⟨(h1 rfl).1, (h2 (by decide) (by decide)).2⟩

/-- C7 (counterexample): `_safe_relpath` does not reject an absolute
upload path; it silently strips the leading slash and accepts it. -/
theorem safeRelpath_accepts_absolute_path :
    safeRelpath (some "/etc/passwd") = .ok "etc/passwd" ∧
    ∀ err, safeRelpath (some "/etc/passwd") ≠ .error err := by
  refine ⟨by decide, ?_⟩
  intro err hc
  rw [show safeRelpath (some "/etc/passwd") = .ok "etc/passwd" from by decide] at hc
  exact Except.noConfusion hc

/-- Once the extraction loop has raised, it stays raised. -/
lemma zip_fold_error (l : List ZipEntry) (e : HttpError) :
    l.foldl zipEntryStep (.error e) = .error e := by
  induction l with
  | nil => rfl
  | cons a l ih =>
    rw [List.foldl_cons]
    exact ih

/-- The only error the extraction loop raises is the 400 rejection. -/
lemma zipEntryStep_error_shape {acc : List String} {entry : ZipEntry} {e : HttpError}
    (h : zipEntryStep (.ok acc) entry = .error e) :
    e = ⟨400, "Invalid zip entry path"⟩ := by
  simp only [zipEntryStep] at h
  split_ifs at h <;>
    first
      | (injection h with h'; exact h'.symm)
      | exact absurd h (by simp)

/-- An archive containing an invalid entry anywhere makes the whole
extraction end in the 400 rejection. -/
lemma zip_fold_bad : ∀ (l : List ZipEntry) (acc : List String),
    (∃ entry ∈ l, isBadZipEntry entry) →
    l.foldl zipEntryStep (.ok acc) = .error ⟨400, "Invalid zip entry path"⟩ := by
  intro l
  induction l with
  | nil =>
    rintro acc ⟨entry, h, -⟩
    exact absurd h (List.not_mem_nil entry)
  | cons a l ih =>
    rintro acc ⟨entry, hmem, hbad⟩
    rw [List.foldl_cons]
    rcases List.mem_cons.mp hmem with rfl | hmem'
    · have hstep : zipEntryStep (.ok acc) entry = .error ⟨400, "Invalid zip entry path"⟩ := by
        rcases hbad with h1 | ⟨h2, h3, h4⟩
        · simp [zipEntryStep, h1]
        · by_cases h1 : strStartsWith (slashify entry.filename) "/" = true
          · simp [zipEntryStep, h1]
          · simp [zipEntryStep, h1, h2, h3, h4]
      rw [hstep]
      exact zip_fold_error l _
    · cases hstep : zipEntryStep (.ok acc) a with
      | error e =>
        rw [zip_fold_error, zipEntryStep_error_shape hstep]
      | ok acc2 =>
        exact ih acc2 ⟨entry, hmem', hbad⟩

/-- C7 (amended): zip extraction rejects (with the 400 error, before
anything is installed into the current dataset) every archive containing
an absolute entry path or a non-skipped entry with a `".."` component —
in particular any archive containing `../../etc/passwd`; individual-file
upload paths reject `".."` components, but absolute paths are only
normalized by stripping leading slashes
(`safeRelpath_accepts_absolute_path`), not rejected. -/
theorem upload_path_validation (entries : List ZipEntry) (v : String) :
    ((∃ entry ∈ entries, isBadZipEntry entry) →
      safeExtractZip entries = .error ⟨400, "Invalid zip entry path"⟩) ∧
    (".." ∈ (pySplit '/' (lstripSlash (slashify v))).filter (fun p => p ≠ "") →
      safeRelpath (some v) = .error ⟨400, "Invalid path in upload payload"⟩) ∧
    ((∃ entry ∈ entries, entry.filename = "../../etc/passwd") →
      safeExtractZip entries = .error ⟨400, "Invalid zip entry path"⟩) := by
  refine ⟨?_, ?_, ?_⟩
  · intro h
    exact zip_fold_bad entries [] h
  · intro h
    simp only [safeRelpath, Option.getD_some]
    rw [if_pos h]
  · rintro ⟨entry, hmem, hname⟩
    exact zip_fold_bad entries []
      ⟨entry, hmem, Or.inr ⟨by rw [hname]; decide, by rw [hname]; decide, by rw [hname]; decide⟩⟩

/-- Witness for `upload_path_validation` at a concrete archive and a
concrete individual-file path. -/
theorem upload_path_validation_witness :
    safeExtractZip [⟨"data/2024-08-16/trains.csv", false⟩, ⟨"../../etc/passwd", false⟩] =
      .error ⟨400, "Invalid zip entry path"⟩ ∧
    safeRelpath (some "a/../b") = .error ⟨400, "Invalid path in upload payload"⟩ := by
  obtain ⟨-, h2, h3⟩ := upload_path_validation
    [⟨"data/2024-08-16/trains.csv", false⟩, ⟨"../../etc/passwd", false⟩] "a/../b"
  exact ⟨h3 ⟨⟨"../../etc/passwd", false⟩, by decide, rfl⟩, h2 (by decide)⟩

/-- C8: on a partially UTF-8-decodable station file (two buffered chunks;
the second holds a byte valid in Windows-1252 but not in UTF-8), the
first fully-decoding encoding is Windows-1252 with rows
`1,MILANO` and `2,GENèVE` — but the generator re-yields the first row
once per failed UTF-8 attempt, so the consumer receives it three times
instead of exactly once. -/
theorem readCsvRows_duplicates_partial_rows :
    runAttempt Enc.cp1252 [stationCsvChunk1, stationCsvChunk2] =
      ([["1", "MILANO"], ["2", "GENèVE"]], true) ∧
    runAttempt Enc.utf8sig [stationCsvChunk1, stationCsvChunk2] = ([["1", "MILANO"]], false) ∧
    runAttempt Enc.utf8 [stationCsvChunk1, stationCsvChunk2] = ([["1", "MILANO"]], false) ∧
    readCsvRows [stationCsvChunk1, stationCsvChunk2] =
      ([["1", "MILANO"], ["1", "MILANO"], ["1", "MILANO"], ["2", "GENèVE"]], true) := by
  decide

/-- C4 (counterexample): on a trip whose terminal stop has null delay
cells, the Delay Distribution melt carries the last non-null values
(from the earlier stop), not the terminal row's values, so the
aggregator does not select "exactly the row with the maximum stop
sequence number". -/
theorem delayBoxplot_not_terminal_row :
    delayBoxplotCore nullTerminalTable =
      .ok [⟨"t1", "arrival_delay", some 5⟩, ⟨"t1", "departure_delay", some 6⟩] ∧
    claimTerminalMelt nullTerminalTable =
      .ok [⟨"t1", "arrival_delay", Option.none⟩, ⟨"t1", "departure_delay", Option.none⟩] ∧
    delayBoxplotCore nullTerminalTable ≠ claimTerminalMelt nullTerminalTable := by
  decide

end RailwayOpenData

namespace RailwayOpenData

/-- With no region filter and a falsy station query, no allowed-codes set
is computed. -/
lemma allowedStationCodes_none (regions : List String) (q : Option String)
    (idx : StationsIndex) (h1 : regions = []) (h2 : queryTruthy q = false) :
    allowedStationCodes regions q idx = Option.none := by
  cases q with
  | none => simp [allowedStationCodes, h1]
  | some s =>
    have hs : ¬ s ≠ "" := by simpa [queryTruthy] using h2
    simp [allowedStationCodes, h1, hs]

/-- With at least one filter given, the allowed-codes set exists and a
code belongs to it exactly when it satisfies the region filter (union
over matched regions) and the station filter (substring resolution),
each vacuous when not given. -/
lemma allowedStationCodes_some (regions : List String) (q : Option String)
    (idx : StationsIndex) (hor : regions ≠ [] ∨ queryTruthy q = true) :
    ∃ A, allowedStationCodes regions q idx = some A ∧
      ∀ c, c ∈ A ↔ ((regions ≠ [] → c ∈ regionCodes regions idx) ∧
        (queryTruthy q = true → c ∈ resolveStationCodes (q.getD "") idx)) := by
  by_cases hr : regions = []
  · have ht : queryTruthy q = true := by
      rcases hor with h | h
      · exact absurd hr h
      · exact h
    obtain ⟨s, rfl⟩ : ∃ s, q = some s := by
      cases q with
      | none => simp [queryTruthy] at ht
      | some s => exact ⟨s, rfl⟩
    have hs : s ≠ "" := by simpa [queryTruthy] using ht
    refine ⟨resolveStationCodes s idx, by simp [allowedStationCodes, hr, hs], ?_⟩
    intro c
    constructor
    · intro hc
      exact ⟨fun h => absurd hr h, fun _ => by simpa using hc⟩
    · rintro ⟨-, h2⟩
      simpa using h2 ht
  · by_cases ht : queryTruthy q = true
    · obtain ⟨s, rfl⟩ : ∃ s, q = some s := by
        cases q with
        | none => simp [queryTruthy] at ht
        | some s => exact ⟨s, rfl⟩
      have hs : s ≠ "" := by simpa [queryTruthy] using ht
      refine ⟨(regionCodes regions idx).filter
          (fun c => decide (c ∈ resolveStationCodes s idx)),
        by simp [allowedStationCodes, hr, hs], ?_⟩
      intro c
      simp [List.mem_filter, hr, ht]
    · have ht' : queryTruthy q = false := by
        cases hq : queryTruthy q with
        | false => rfl
        | true => exact absurd hq ht
      refine ⟨regionCodes regions idx, ?_, ?_⟩
      · cases q with
        | none => simp [allowedStationCodes, hr]
        | some s =>
          have hs : ¬ s ≠ "" := by simpa [queryTruthy] using ht'
          simp [allowedStationCodes, hr, hs]
      · intro c
        simp [hr, ht]

/-- C5: the Row Loader's station filtering. With no filter the table
passes through; with a filter but no station-code column the result is
emptied; otherwise exactly the rows whose station code satisfies the
region filter (case-insensitive union over matched regions) and the
station filter (case-insensitive substring resolution) are kept — in
particular disjoint region and station resolutions leave zero rows. -/
theorem loader_station_filtering (t : Table) (regions : List String)
    (stationQuery : Option String) (idx : StationsIndex) :
    (regions = [] → queryTruthy stationQuery = false →
      applyStationFilters t regions stationQuery idx = t) ∧
    ((regions ≠ [] ∨ queryTruthy stationQuery = true) → "stop_station_code" ∉ t.cols →
      (applyStationFilters t regions stationQuery idx).cols = t.cols ∧
      (applyStationFilters t regions stationQuery idx).rows = []) ∧
    ((regions ≠ [] ∨ queryTruthy stationQuery = true) → "stop_station_code" ∈ t.cols →
      (applyStationFilters t regions stationQuery idx).cols = t.cols ∧
      ∀ r, r ∈ (applyStationFilters t regions stationQuery idx).rows ↔
        (r ∈ t.rows ∧ ∃ c, r.stop_station_code = some c ∧
          (regions ≠ [] → c ∈ regionCodes regions idx) ∧
          (queryTruthy stationQuery = true →
            c ∈ resolveStationCodes (stationQuery.getD "") idx))) ∧
    (regions ≠ [] → queryTruthy stationQuery = true →
      (∀ c ∈ regionCodes regions idx,
        c ∉ resolveStationCodes (stationQuery.getD "") idx) →
      (applyStationFilters t regions stationQuery idx).rows = []) := by
  refine ⟨?_, ?_, ?_, ?_⟩
  · intro h1 h2
    simp [applyStationFilters, allowedStationCodes_none regions stationQuery idx h1 h2]
  · intro hor hcol
    obtain ⟨A, hA, -⟩ := allowedStationCodes_some regions stationQuery idx hor
    simp only [applyStationFilters, hA]
    rw [if_neg hcol]
    exact ⟨rfl, rfl⟩
  · intro hor hcol
    obtain ⟨A, hA, hAmem⟩ := allowedStationCodes_some regions stationQuery idx hor
    simp only [applyStationFilters, hA]
    rw [if_pos hcol]
    refine ⟨rfl, ?_⟩
    intro r
    simp only [List.mem_filter]
    constructor
    · rintro ⟨hrt, hpred⟩
      refine ⟨hrt, ?_⟩
      cases hsc : r.stop_station_code with
      | none =>
        rw [hsc] at hpred
        simp at hpred
      | some c =>
        rw [hsc] at hpred
        simp at hpred
        exact ⟨c, rfl, (hAmem c).mp hpred⟩
    · rintro ⟨hrt, c, hsc, hcond⟩
      refine ⟨hrt, ?_⟩
      rw [hsc]
      simpa using (hAmem c).mpr hcond
  · intro hr ht hdisj
    obtain ⟨A, hA, hAmem⟩ := allowedStationCodes_some regions stationQuery idx (Or.inl hr)
    have hAnil : ∀ c, c ∉ A := by
      intro c hc
      obtain ⟨h1, h2⟩ := (hAmem c).mp hc
      exact hdisj c (h1 hr) (h2 ht)
    by_cases hcol : "stop_station_code" ∈ t.cols
    · simp only [applyStationFilters, hA]
      rw [if_pos hcol]
      rw [List.filter_eq_nil_iff]
      intro r _
      cases hsc : r.stop_station_code with
      | none => simp [hsc]
      | some c => simp [hsc, hAnil c]
    · simp only [applyStationFilters, hA]
      rw [if_neg hcol]

/-- Witness for `loader_station_filtering`: a Lombardia region filter
with a station query resolving only to a Piemonte station leaves zero
rows. -/
theorem loader_station_filtering_witness :
    (applyStationFilters demoTable ["Lombardia"] (some "S2") demoIndex).rows = [] ∧
    regionCodes ["Lombardia"] demoIndex = ["S1"] ∧
    resolveStationCodes "S2" demoIndex = ["S2"] := by
  obtain ⟨-, -, -, h4⟩ := loader_station_filtering demoTable ["Lombardia"] (some "S2") demoIndex
  exact ⟨h4 (by decide) (by decide) (by decide), by decide, by decide⟩

end RailwayOpenData

namespace RailwayOpenData

/-- The stop-number comparison is transitive. -/
lemma stopLeP_trans (a b c : Row) : stopLeP a b → stopLeP b c → stopLeP a c := by
  unfold stopLeP stopLe
  cases a.stop_number <;> cases b.stop_number <;> cases c.stop_number <;> simp <;> omega

/-- The stop-number comparison is total. -/
lemma stopLeP_total (a b : Row) : stopLeP a b ∨ stopLeP b a := by
  unfold stopLeP stopLe
  cases a.stop_number <;> cases b.stop_number <;> simp <;> omega

instance : IsTrans Row stopLeP := ⟨stopLeP_trans⟩

instance : IsTotal Row stopLeP := ⟨stopLeP_total⟩

/-- A strictly larger stop number refutes the non-strict comparison the
other way. -/
lemma stopLe_false_of_stopLt (x r : Row) : stopLt x r = true → stopLe r x = false := by
  unfold stopLt stopLe
  cases x.stop_number <;> cases r.stop_number <;> simp <;> omega

/-- `tripStep` on a row without a trip identifier. -/
lemma tripStep_none (acc : List String) (r : Row) (h : r.train_hash = Option.none) :
    tripStep acc r = acc := by
  rw [tripStep, h]

/-- `tripStep` on a row with a trip identifier. -/
lemma tripStep_some (acc : List String) (r : Row) (hh : String)
    (h : r.train_hash = some hh) :
    tripStep acc r = if hh ∈ acc then acc else acc ++ [hh] := by
  rw [tripStep, h]

/-- The accumulator characterization of the `tripIds` fold. -/
lemma tripIds_foldl_mem (rows : List Row) (acc : List String) (h : String) :
    h ∈ rows.foldl tripStep acc ↔ (h ∈ acc ∨ ∃ r ∈ rows, r.train_hash = some h) := by
  induction rows generalizing acc with
  | nil => simp
  | cons a l ih =>
    rw [List.foldl_cons]
    cases ha : a.train_hash with
    | none =>
      rw [tripStep_none acc a ha, ih]
      constructor
      · rintro (h1 | ⟨r, hr, hrh⟩)
        · exact Or.inl h1
        · exact Or.inr ⟨r, List.mem_cons_of_mem a hr, hrh⟩
      · rintro (h1 | ⟨r, hr, hrh⟩)
        · exact Or.inl h1
        · rcases List.mem_cons.mp hr with rfl | hr'
          · rw [ha] at hrh
            exact absurd hrh (by simp)
          · exact Or.inr ⟨r, hr', hrh⟩
    | some hh =>
      rw [tripStep_some acc a hh ha]
      by_cases hmem : hh ∈ acc
      · rw [if_pos hmem, ih]
        constructor
        · rintro (h1 | ⟨r, hr, hrh⟩)
          · exact Or.inl h1
          · exact Or.inr ⟨r, List.mem_cons_of_mem a hr, hrh⟩
        · rintro (h1 | ⟨r, hr, hrh⟩)
          · exact Or.inl h1
          · rcases List.mem_cons.mp hr with rfl | hr'
            · rw [ha] at hrh
              have : hh = h := by simpa using hrh
              exact Or.inl (this ▸ hmem)
            · exact Or.inr ⟨r, hr', hrh⟩
      · rw [if_neg hmem, ih]
        constructor
        · rintro (h1 | ⟨r, hr, hrh⟩)
          · rcases List.mem_append.mp h1 with h2 | h2
            · exact Or.inl h2
            · have : h = hh := by simpa using h2
              exact Or.inr ⟨a, List.mem_cons_self a l, by rw [ha, this]⟩
          · exact Or.inr ⟨r, List.mem_cons_of_mem a hr, hrh⟩
        · rintro (h1 | ⟨r, hr, hrh⟩)
          · exact Or.inl (List.mem_append.mpr (Or.inl h1))
          · rcases List.mem_cons.mp hr with rfl | hr'
            · rw [ha] at hrh
              have : hh = h := by simpa using hrh
              exact Or.inl (List.mem_append.mpr (Or.inr (by simp [this])))
            · exact Or.inr ⟨r, hr', hrh⟩

/-- A trip identifier appears in `tripIds` exactly when some row carries
it. -/
lemma mem_tripIds (rows : List Row) (h : String) :
    h ∈ tripIds rows ↔ ∃ r ∈ rows, r.train_hash = some h := by
  rw [tripIds, tripIds_foldl_mem]
  simp

/-- `GroupBy.last` on a column whose final group entry is non-null
returns that entry. -/
lemma lastSome_concat (l : List (Option Int)) (v : Int) :
    lastSome (l ++ [some v]) = some v := by
  rw [lastSome, List.foldl_append]
  rfl

/-- In a list sorted by stop number, an element strictly above every
other element of the list is the last one. -/
lemma getLast_of_pairwise_strict : ∀ (l : List Row) (r : Row),
    List.Pairwise stopLeP l → r ∈ l → (∀ x ∈ l, x ≠ r → stopLe r x = false) →
    l.getLast? = some r := by
  intro l
  induction l with
  | nil =>
    intro r _ hmem _
    exact absurd hmem (List.not_mem_nil r)
  | cons a l ih =>
    intro r hpw hmem hstrict
    rcases List.mem_cons.mp hmem with rfl | hmem'
    · cases hl : l with
      | nil => rfl
      | cons b g2 =>
        have hall : ∀ x ∈ l, x = r := by
          intro x hx
          by_contra hne
          have h1 : stopLeP r x := (List.pairwise_cons.mp hpw).1 x hx
          have h2 : stopLe r x = false := hstrict x (List.mem_cons_of_mem r hx) hne
          rw [stopLeP, h2] at h1
          exact Bool.false_ne_true h1
        have hrmem : r ∈ l := by
          have hb : b = r := hall b (by rw [hl]; exact List.mem_cons_self b g2)
          rw [hl, ← hb]
          exact List.mem_cons_self b g2
        have hlast := ih r (List.pairwise_cons.mp hpw).2 hrmem
          (fun x hx hne => hstrict x (List.mem_cons_of_mem r hx) hne)
        rw [hl] at hlast
        rw [List.getLast?_cons_cons]
        exact hlast
    · have hlne : l ≠ [] := List.ne_nil_of_mem hmem'
      obtain ⟨b, g2, rfl⟩ := List.exists_cons_of_ne_nil hlne
      rw [List.getLast?_cons_cons]
      exact ih r (List.pairwise_cons.mp hpw).2 hmem'
        (fun x hx hne => hstrict x (List.mem_cons_of_mem a hx) hne)

/-- The first component of a `groupby(...).last()` row is its key. -/
lemma groupLastRow_hash (rows : List Row) (h : String) :
    (groupLastRow rows h).train_hash = h := rfl

/-- Reduction of the Delay Distribution core on a nonempty table with all
four needed columns present. -/
lemma delayBoxplotCore_allcols (t : Table)
    (hfil : (["train_hash", "stop_number", "arrival_delay", "departure_delay"].filter
      (fun c => decide (c ∈ t.cols))) =
      ["train_hash", "stop_number", "arrival_delay", "departure_delay"])
    (hne : t.rows ≠ []) :
    delayBoxplotCore t =
      .ok (meltPerTrain (groupbyLast (sortByStopNumber t.rows))
        ["arrival_delay", "departure_delay"]) := by
  simp only [delayBoxplotCore, hfil]
  rw [if_neg hne, if_neg (by decide : ¬ ("train_hash" ∉
      (["train_hash", "stop_number", "arrival_delay", "departure_delay"] : List String))),
    if_pos (by decide : "stop_number" ∈
      (["train_hash", "stop_number", "arrival_delay", "departure_delay"] : List String)),
    if_neg (by decide : ¬ ((["arrival_delay", "departure_delay"].filter
      (fun c => decide (c ∈ (["train_hash", "stop_number", "arrival_delay",
        "departure_delay"] : List String)))) = []))]
  rfl

/-- C4 (amended): on a table with all four needed columns where row `r`
is trip `h`'s unique stop with the strictly largest stop number (phantom
rows were already removed by the loader) and `r`'s delay cells are
non-null, the Delay Distribution melt contains exactly `r`'s arrival and
departure delays for trip `h`; with null cells at the terminal stop the
aggregator would instead carry the last non-null value per column
(`delayBoxplot_not_terminal_row`). -/
theorem delayBoxplot_terminal_selection
    (t : Table) (h : String) (r : Row)
    (hth : "train_hash" ∈ t.cols) (hsn : "stop_number" ∈ t.cols)
    (had : "arrival_delay" ∈ t.cols) (hdd : "departure_delay" ∈ t.cols)
    (hr : r ∈ t.rows) (hrh : r.train_hash = some h)
    (hmax : ∀ r2 ∈ t.rows, r2.train_hash = some h → r2 ≠ r → stopLt r2 r = true)
    (ha : r.arrival_delay ≠ Option.none) (hd : r.departure_delay ≠ Option.none) :
    ∃ melted, delayBoxplotCore t = .ok melted ∧
      (⟨h, "arrival_delay", r.arrival_delay⟩ : MeltRow) ∈ melted ∧
      (⟨h, "departure_delay", r.departure_delay⟩ : MeltRow) ∈ melted := by
  have hne : t.rows ≠ [] := List.ne_nil_of_mem hr
  have hfil : (["train_hash", "stop_number", "arrival_delay", "departure_delay"].filter
      (fun c => decide (c ∈ t.cols))) =
      ["train_hash", "stop_number", "arrival_delay", "departure_delay"] := by
    rw [List.filter_eq_self]
    intro c hc
    simp only [List.mem_cons, List.not_mem_nil, or_false] at hc
    rcases hc with rfl | rfl | rfl | rfl <;> simpa
  have hsorted : List.Pairwise stopLeP (sortByStopNumber t.rows) :=
    List.sorted_insertionSort stopLeP t.rows
  have hsortmem : r ∈ sortByStopNumber t.rows :=
    ((List.perm_insertionSort stopLeP t.rows).mem_iff).mpr hr
  have hglast : ((sortByStopNumber t.rows).filter
      (fun r2 => decide (r2.train_hash = some h))).getLast? = some r := by
    apply getLast_of_pairwise_strict
    · exact List.Pairwise.sublist (List.filter_sublist _) hsorted
    · exact List.mem_filter.mpr ⟨hsortmem, by simpa using hrh⟩
    · intro x hx hne2
      obtain ⟨hxl, hxh⟩ := List.mem_filter.mp hx
      have hxh' : x.train_hash = some h := by simpa using hxh
      have hxrows : x ∈ t.rows :=
        ((List.perm_insertionSort stopLeP t.rows).mem_iff).mp hxl
      exact stopLe_false_of_stopLt x r (hmax x hxrows hxh' hne2)
  obtain ⟨init, hinit⟩ := List.getLast?_eq_some_iff.mp hglast
  have harr : (groupLastRow (sortByStopNumber t.rows) h).arrival_delay = r.arrival_delay := by
    obtain ⟨va, hva⟩ := Option.ne_none_iff_exists'.mp ha
    show lastSome (((sortByStopNumber t.rows).filter
      (fun r2 => decide (r2.train_hash = some h))).map Row.arrival_delay) = r.arrival_delay
    rw [hinit, List.map_append, List.map_cons, List.map_nil, hva, lastSome_concat]
  have hdep : (groupLastRow (sortByStopNumber t.rows) h).departure_delay =
      r.departure_delay := by
    obtain ⟨vd, hvd⟩ := Option.ne_none_iff_exists'.mp hd
    show lastSome (((sortByStopNumber t.rows).filter
      (fun r2 => decide (r2.train_hash = some h))).map Row.departure_delay) = r.departure_delay
    rw [hinit, List.map_append, List.map_cons, List.map_nil, hvd, lastSome_concat]
  have htrip : h ∈ tripIds (sortByStopNumber t.rows) :=
    (mem_tripIds _ h).mpr ⟨r, hsortmem, hrh⟩
  have hpm : groupLastRow (sortByStopNumber t.rows) h ∈ groupbyLast (sortByStopNumber t.rows) := by
    rw [groupbyLast]
    exact List.mem_map_of_mem _ htrip
  refine ⟨meltPerTrain (groupbyLast (sortByStopNumber t.rows))
    ["arrival_delay", "departure_delay"], delayBoxplotCore_allcols t hfil hne, ?_, ?_⟩
  · rw [meltPerTrain]
    apply List.mem_flatMap.mpr
    refine ⟨"arrival_delay", by simp, ?_⟩
    apply List.mem_map.mpr
    refine ⟨groupLastRow (sortByStopNumber t.rows) h, hpm, ?_⟩
    rw [if_pos rfl, harr, groupLastRow_hash]
  · rw [meltPerTrain]
    apply List.mem_flatMap.mpr
    refine ⟨"departure_delay", by simp, ?_⟩
    apply List.mem_map.mpr
    refine ⟨groupLastRow (sortByStopNumber t.rows) h, hpm, ?_⟩
    rw [if_neg (by decide : ¬ ("departure_delay" = "arrival_delay")), hdep, groupLastRow_hash]

/-- Witness for `delayBoxplot_terminal_selection`: the synthetic phantom
scenario — three stops, the nominal last one phantom — after the
loader's phantom filtering; the melt carries the delays of stop 2, the
preceding non-phantom stop. -/
theorem delayBoxplot_terminal_selection_witness :
    ∃ melted, delayBoxplotCore (filterPhantoms phantomTable) = .ok melted ∧
      (⟨"t1", "arrival_delay", some 7⟩ : MeltRow) ∈ melted ∧
      (⟨"t1", "departure_delay", some 8⟩ : MeltRow) ∈ melted :=
  delayBoxplot_terminal_selection (filterPhantoms phantomTable) "t1" phantomTerminal
    (by decide) (by decide) (by decide) (by decide) (by decide) (by decide)
    (by decide) (by decide) (by decide)

end RailwayOpenData
